import Mathlib

/-!
Verification of the Elastic-IP cleanup Lambda (`src/lambda/lambda_function.py`).

The handler enumerates Elastic-IP address allocations, and for each allocation
whose `instance_id` is `None` it prints an informational line, calls
`release()` on it (catching any exception, printing an error line and
continuing), and counts the successful releases; finally it returns
`{'statusCode': 200, 'body': f'Released {count} unassociated EIP(s).'}`.

Shallow embedding: the enumeration result is a list of `AddressAllocation`
values; the outcome of each `release()` call is given by an oracle
`release : String → Except String Unit` keyed by the allocation identifier
(`Except.error e` models the raised exception with detail `e`).  Side effects
(the two `print` calls and the release calls themselves) are recorded in an
event trace, in the order the source performs them: the informational print
happens before the release call, and the error print after a failing call.
-/

structure AddressAllocation where
  public_ip : String
  allocation_id : String
  instance_id : Option String
deriving DecidableEq

/-- Observable events of one handler run: the informational `print`
(line 14 of the source), the release call itself (line 15, with its outcome),
and the error `print` in the `except` arm (line 18). -/
inductive Event where
  | info (public_ip : String) (allocation_id : String)
  | releaseCall (alloc : AddressAllocation) (ok : Bool)
  | error (allocation_id : String) (detail : String)
deriving DecidableEq

structure HandlerResult where
  statusCode : Nat
  body : String
deriving DecidableEq

/-- The body string `f'Released {released_count} unassociated EIP(s).'`. -/
def releaseBody (n : Nat) : String :=
  "Released " ++ toString n ++ " unassociated EIP(s)."

/-- Whether a release call completed without raising. -/
def relOk : Except String Unit → Bool
  | Except.ok _ => true
  | Except.error _ => false

/-- One iteration of the `for` loop over `(released_count, printed events)`:
if `instance_id is None`, print the informational line, call `release()`;
on success increment the counter, on failure print the error line and
continue.  Associated allocations are untouched. -/
def step (release : String → Except String Unit) (acc : Nat × List Event)
    (a : AddressAllocation) : Nat × List Event :=
  if a.instance_id = none then
    match release a.allocation_id with
    | Except.ok _ =>
        (acc.1 + 1,
         acc.2 ++ [Event.info a.public_ip a.allocation_id,
                   Event.releaseCall a true])
    | Except.error e =>
        (acc.1,
         acc.2 ++ [Event.info a.public_ip a.allocation_id,
                   Event.releaseCall a false,
                   Event.error a.allocation_id e])
  else acc

/-- `lambda_handler`, given the already-enumerated allocation list: the loop,
then the returned mapping.  Also yields the event trace of the run. -/
def lambda_handler (allocs : List AddressAllocation)
    (release : String → Except String Unit) : HandlerResult × List Event :=
  let r := allocs.foldl (step release) (0, [])
  (⟨200, releaseBody r.1⟩, r.2)

/-- The value of `released_count` at the end of the loop. -/
def releasedCount (allocs : List AddressAllocation)
    (release : String → Except String Unit) : Nat :=
  (allocs.foldl (step release) (0, [])).1

/-- The event trace of a run. -/
def handlerTrace (allocs : List AddressAllocation)
    (release : String → Except String Unit) : List Event :=
  (allocs.foldl (step release) (0, [])).2

/-- The whole handler including the enumeration call
`ec2_resource.vpc_addresses.all()`: an enumeration failure is not inside any
`try`, so it propagates and no result mapping is produced. -/
def lambda_handler_full (enum : Except String (List AddressAllocation))
    (release : String → Except String Unit) :
    Except String (HandlerResult × List Event) :=
  match enum with
  | Except.error e => Except.error e
  | Except.ok allocs => Except.ok (lambda_handler allocs release)

/-- Modelled from the spec: the external API's release operation performs
irreversible deallocation, so after a run the remote pool retains exactly the
allocations that were associated or whose release call failed ("no external
association changes between runs" — the only pool change is the run's own
successful releases). -/
def remainingPool (allocs : List AddressAllocation)
    (release : String → Except String Unit) : List AddressAllocation :=
  allocs.filter (fun a => !(a.instance_id.isNone && relOk (release a.allocation_id)))

/-! ### Characterisation of the loop -/

/-- The events one allocation contributes to the trace. -/
def entries (release : String → Except String Unit) (a : AddressAllocation) :
    List Event :=
  if a.instance_id = none then
    match release a.allocation_id with
    | Except.ok _ =>
        [Event.info a.public_ip a.allocation_id, Event.releaseCall a true]
    | Except.error e =>
        [Event.info a.public_ip a.allocation_id, Event.releaseCall a false,
         Event.error a.allocation_id e]
  else []

/-- The counter increment one allocation contributes. -/
def countOne (release : String → Except String Unit) (a : AddressAllocation) : Nat :=
  if a.instance_id = none then
    match release a.allocation_id with
    | Except.ok _ => 1
    | Except.error _ => 0
  else 0

def countAll (release : String → Except String Unit) :
    List AddressAllocation → Nat
  | [] => 0
  | a :: l => countOne release a + countAll release l

def traceOf (release : String → Except String Unit) :
    List AddressAllocation → List Event
  | [] => []
  | a :: l => entries release a ++ traceOf release l

lemma step_eq (release : String → Except String Unit) (acc : Nat × List Event)
    (a : AddressAllocation) :
    step release acc a = (acc.1 + countOne release a, acc.2 ++ entries release a) := by
  unfold step countOne entries
  rcases h : a.instance_id with _ | i
  · simp only [if_pos rfl]
    rcases release a.allocation_id with _ | e <;> simp
  · simp

lemma foldl_step_eq (release : String → Except String Unit) :
    ∀ (l : List AddressAllocation) (acc : Nat × List Event),
      l.foldl (step release) acc =
        (acc.1 + countAll release l, acc.2 ++ traceOf release l) := by
  intro l
  induction l with
  | nil => intro acc; simp [countAll, traceOf]
  | cons a l ih =>
      intro acc
      rw [List.foldl_cons, ih, step_eq]
      simp [countAll, traceOf, Nat.add_assoc]

lemma releasedCount_eq (allocs : List AddressAllocation)
    (release : String → Except String Unit) :
    releasedCount allocs release = countAll release allocs := by
  simp [releasedCount, foldl_step_eq]

lemma handlerTrace_eq (allocs : List AddressAllocation)
    (release : String → Except String Unit) :
    handlerTrace allocs release = traceOf release allocs := by
  simp [handlerTrace, foldl_step_eq]

lemma lambda_handler_eq (allocs : List AddressAllocation)
    (release : String → Except String Unit) :
    lambda_handler allocs release =
      (⟨200, releaseBody (countAll release allocs)⟩, traceOf release allocs) := by
  simp [lambda_handler, foldl_step_eq]

lemma mem_traceOf {release : String → Except String Unit} {e : Event} :
    ∀ {l : List AddressAllocation},
      e ∈ traceOf release l ↔ ∃ a ∈ l, e ∈ entries release a := by
  intro l
  induction l with
  | nil => simp [traceOf]
  | cons a l ih => simp [traceOf, ih, List.mem_append, or_and_right, exists_or]

lemma countP_traceOf_eq (release : String → Except String Unit)
    (p : Event → Bool) (q : AddressAllocation → Bool)
    (h : ∀ b, List.countP p (entries release b) = if q b then 1 else 0) :
    ∀ l : List AddressAllocation,
      List.countP p (traceOf release l) = List.countP q l := by
  intro l
  induction l with
  | nil => simp [traceOf]
  | cons a l ih =>
      simp [traceOf, List.countP_append, List.countP_cons, ih, h a]
      by_cases hq : q a = true <;> simp [hq]
      all_goals omega

lemma countP_eq_one_of_key (a : AddressAllocation) (q : AddressAllocation → Bool)
    (hq : ∀ b, q b = true → b.allocation_id = a.allocation_id) :
    ∀ l : List AddressAllocation,
      (l.map (fun x => x.allocation_id)).Nodup → a ∈ l → q a = true →
      List.countP q l = 1 := by
  intro l
  induction l with
  | nil => intro _ hmem; simp at hmem
  | cons b t ih =>
      intro hnd hmem hqa
      rw [List.map_cons, List.nodup_cons] at hnd
      rcases List.mem_cons.mp hmem with hab | hat
      · subst hab
        rw [List.countP_cons, if_pos hqa]
        have ht : List.countP q t = 0 := by
          rw [List.countP_eq_zero]
          intro c hc hqc
          exact hnd.1 (by
            rw [← hq c hqc]
            exact List.mem_map.mpr ⟨c, hc, rfl⟩)
        omega
      · have hqb : ¬ q b = true := by
          intro hqb
          exact hnd.1 (by
            rw [hq b hqb]
            exact List.mem_map.mpr ⟨a, hat, rfl⟩)
        rw [List.countP_cons, if_neg hqb, ih hnd.2 hat hqa]

/-- A successful release call in the trace. -/
def isSuccessCall : Event → Bool
  | Event.releaseCall _ true => true
  | _ => false

lemma countP_isSuccessCall_entries (release : String → Except String Unit)
    (b : AddressAllocation) :
    List.countP isSuccessCall (entries release b) = countOne release b := by
  unfold entries countOne
  rcases b.instance_id with _ | i
  · rcases release b.allocation_id with _ | e <;>
      simp [List.countP_cons, isSuccessCall]
  · simp

lemma countP_isSuccessCall_traceOf (release : String → Except String Unit) :
    ∀ l : List AddressAllocation,
      List.countP isSuccessCall (traceOf release l) = countAll release l := by
  intro l
  induction l with
  | nil => simp [traceOf, countAll]
  | cons a l ih =>
      simp [traceOf, countAll, List.countP_append, ih,
            countP_isSuccessCall_entries, Nat.add_comm]

/-- A release-call event for a given allocation identifier. -/
def isCallFor (id : String) : Event → Bool
  | Event.releaseCall b _ => b.allocation_id == id
  | _ => false

/-- An informational record naming a given allocation identifier. -/
def isInfoFor (id : String) : Event → Bool
  | Event.info _ i => i == id
  | _ => false

/-- An error record naming a given allocation identifier. -/
def isErrorFor (id : String) : Event → Bool
  | Event.error i _ => i == id
  | _ => false

lemma countP_isCallFor_entries (release : String → Except String Unit)
    (id : String) (b : AddressAllocation) :
    List.countP (isCallFor id) (entries release b) =
      if b.instance_id.isNone && (b.allocation_id == id) then 1 else 0 := by
  unfold entries
  rcases b.instance_id with _ | i
  · rcases release b.allocation_id with _ | e <;>
      by_cases hid : b.allocation_id = id <;>
        simp [List.countP_cons, isCallFor, isInfoFor, isErrorFor, hid]
  · simp

lemma countP_isInfoFor_entries (release : String → Except String Unit)
    (id : String) (b : AddressAllocation) :
    List.countP (isInfoFor id) (entries release b) =
      if b.instance_id.isNone && (b.allocation_id == id) then 1 else 0 := by
  unfold entries
  rcases b.instance_id with _ | i
  · rcases release b.allocation_id with _ | e <;>
      by_cases hid : b.allocation_id = id <;>
        simp [List.countP_cons, isInfoFor, hid]
  · simp

lemma countP_isErrorFor_entries (release : String → Except String Unit)
    (id : String) (b : AddressAllocation) :
    List.countP (isErrorFor id) (entries release b) =
      if b.instance_id.isNone && (b.allocation_id == id)
           && !relOk (release b.allocation_id) then 1 else 0 := by
  unfold entries
  rcases b.instance_id with _ | i
  · rcases hr : release b.allocation_id with _ | e <;>
      by_cases hid : b.allocation_id = id <;>
        simp [List.countP_cons, isErrorFor, hid, relOk, hr]
  · simp

lemma releaseCall_mem_entries {release : String → Except String Unit}
    {b a : AddressAllocation} {ok : Bool}
    (h : Event.releaseCall a ok ∈ entries release b) :
    b = a ∧ a.instance_id = none := by
  unfold entries at h
  by_cases hb : b.instance_id = none
  · rw [if_pos hb] at h
    rcases hr : release b.allocation_id with _ | e
    · rw [hr] at h
      simp at h
      exact ⟨h.1.symm, by rw [h.1]; exact hb⟩
    · rw [hr] at h
      simp at h
      exact ⟨h.1.symm, by rw [h.1]; exact hb⟩
  · rw [if_neg hb] at h
    simp at h

lemma info_mem_entries_self {release : String → Except String Unit}
    {a : AddressAllocation} (h : a.instance_id = none) :
    Event.info a.public_ip a.allocation_id ∈ entries release a := by
  unfold entries
  rw [if_pos h]
  rcases release a.allocation_id with _ | e <;> simp

lemma error_mem_entries_self {release : String → Except String Unit}
    {a : AddressAllocation} {e : String} (h : a.instance_id = none)
    (hr : release a.allocation_id = Except.error e) :
    Event.error a.allocation_id e ∈ entries release a := by
  unfold entries
  rw [if_pos h, hr]
  simp

lemma releaseCall_self_mem_entries {release : String → Except String Unit}
    {a : AddressAllocation} (h : a.instance_id = none) :
    Event.releaseCall a (relOk (release a.allocation_id)) ∈ entries release a := by
  unfold entries
  rw [if_pos h]
  rcases hr : release a.allocation_id with _ | e <;> simp [relOk, hr]

lemma countOne_eq_zero {release : String → Except String Unit}
    {a : AddressAllocation} (h : ¬ a.instance_id = none) :
    countOne release a = 0 := by
  unfold countOne
  rw [if_neg h]

lemma entries_eq_nil {release : String → Except String Unit}
    {a : AddressAllocation} (h : ¬ a.instance_id = none) :
    entries release a = [] := by
  unfold entries
  rw [if_neg h]

lemma countAll_eq_zero {release : String → Except String Unit} :
    ∀ {l : List AddressAllocation}, (∀ a ∈ l, ¬ a.instance_id = none) →
      countAll release l = 0 := by
  intro l
  induction l with
  | nil => intro _; rfl
  | cons a t ih =>
      intro h
      rw [countAll, countOne_eq_zero (h a (List.mem_cons_self a t)),
          ih (fun b hb => h b (List.mem_cons_of_mem a hb))]

lemma traceOf_eq_nil {release : String → Except String Unit} :
    ∀ {l : List AddressAllocation}, (∀ a ∈ l, ¬ a.instance_id = none) →
      traceOf release l = [] := by
  intro l
  induction l with
  | nil => intro _; rfl
  | cons a t ih =>
      intro h
      rw [traceOf, entries_eq_nil (h a (List.mem_cons_self a t)),
          ih (fun b hb => h b (List.mem_cons_of_mem a hb))]
      rfl

lemma countAll_filter (release : String → Except String Unit) :
    ∀ l : List AddressAllocation,
      countAll release (l.filter fun a => a.instance_id.isNone) =
        countAll release l := by
  intro l
  induction l with
  | nil => rfl
  | cons a t ih =>
      by_cases hn : a.instance_id = none
      · rw [List.filter_cons, if_pos (by simp [hn]), countAll, countAll, ih]
      · rw [List.filter_cons, if_neg (by simp [Option.isNone_iff_eq_none, hn]),
            ih, countAll, countOne_eq_zero hn]
        omega

lemma traceOf_filter (release : String → Except String Unit) :
    ∀ l : List AddressAllocation,
      traceOf release (l.filter fun a => a.instance_id.isNone) =
        traceOf release l := by
  intro l
  induction l with
  | nil => rfl
  | cons a t ih =>
      by_cases hn : a.instance_id = none
      · rw [List.filter_cons, if_pos (by simp [hn]), traceOf, traceOf, ih]
      · rw [List.filter_cons, if_neg (by simp [Option.isNone_iff_eq_none, hn]),
            ih, traceOf, entries_eq_nil hn, List.nil_append]

/-! ### Concrete runs used as witnesses and counterexamples -/

/-- An allocation bound to an instance (associated). -/
def exAssoc : AddressAllocation := ⟨"54.1.2.3", "eip-a", some "i-0123"⟩

/-- An unassociated allocation. -/
def exUnassoc : AddressAllocation := ⟨"54.1.2.4", "eip-b", none⟩

/-- The worked example's first unassociated allocation. -/
def exAllocC : AddressAllocation := ⟨"203.0.113.7", "eip-c", none⟩

/-- The worked example's second unassociated allocation. -/
def exAllocD : AddressAllocation := ⟨"203.0.113.8", "eip-d", none⟩

/-- Release fails for eip-c and succeeds for everything else. -/
def exRelease : String → Except String Unit :=
  fun i => if i == "eip-c" then Except.error "AuthFailure" else Except.ok ()

/-- Every release call succeeds. -/
def alwaysOk : String → Except String Unit := fun _ => Except.ok ()

/-- Every release call raises. -/
def alwaysFail : String → Except String Unit :=
  fun _ => Except.error "DependencyViolation"

/-! ### The claims -/

/-- C1: the count `N` in the returned body equals the number of release calls
that completed without raising a failure (the successful release-call events
of the run), not the number of release calls attempted. -/
theorem C1_count_eq_successful_calls (allocs : List AddressAllocation)
    (release : String → Except String Unit) :
    releasedCount allocs release =
      List.countP isSuccessCall (handlerTrace allocs release) ∧
    (lambda_handler allocs release).1.body =
      releaseBody (List.countP isSuccessCall ((lambda_handler allocs release).2)) := by
  have h := countP_isSuccessCall_traceOf release allocs
  constructor
  · rw [releasedCount_eq, handlerTrace_eq, h]
  · rw [lambda_handler_eq]
    simp [h]

/-- C2 counterexample: for an unassociated allocation whose release call
fails, the informational record naming its public address and allocation
identifier is still emitted (the source prints it before calling
`release()`), refuting the claim that it is emitted only on successful
release and that a failing allocation gets no informational record. -/
theorem C2_cex_info_emitted_on_failed_release :
    Event.info "203.0.113.7" "eip-c" ∈ handlerTrace [exAllocC] alwaysFail ∧
    Event.releaseCall exAllocC true ∉ handlerTrace [exAllocC] alwaysFail := by
  decide

/-- C2 (amended): the informational record naming the public address and the
allocation identifier is emitted on every release attempt, before the call,
not only on success: for an unassociated allocation (with allocation
identifiers unique in scope) the log contains exactly one informational
record for it regardless of outcome, and when its release fails exactly one
error record for it as well. -/
theorem C2_info_on_every_attempt (allocs : List AddressAllocation)
    (release : String → Except String Unit) (a : AddressAllocation)
    (hnd : (allocs.map (fun x => x.allocation_id)).Nodup)
    (ha : a ∈ allocs) (hun : a.instance_id = none) :
    List.countP (isInfoFor a.allocation_id) (handlerTrace allocs release) = 1 ∧
    ∀ e, release a.allocation_id = Except.error e →
      List.countP (isErrorFor a.allocation_id) (handlerTrace allocs release) = 1 := by
  rw [handlerTrace_eq]
  constructor
  · rw [countP_traceOf_eq release _
        (fun b => b.instance_id.isNone && (b.allocation_id == a.allocation_id))
        (countP_isInfoFor_entries release a.allocation_id)]
    exact countP_eq_one_of_key a _
      (fun b hb => by simp at hb; exact hb.2) allocs hnd ha (by simp [hun])
  · intro e he
    rw [countP_traceOf_eq release _
        (fun b => b.instance_id.isNone && (b.allocation_id == a.allocation_id)
          && !relOk (release b.allocation_id))
        (countP_isErrorFor_entries release a.allocation_id)]
    exact countP_eq_one_of_key a _
      (fun b hb => by simp at hb; exact hb.1.2) allocs hnd ha
      (by simp [hun, he, relOk])

/-- C2 witness: the worked example (release fails for eip-c and succeeds for
eip-d) instantiates the amended claim at eip-c. -/
theorem C2_info_on_every_attempt_witness :
    ([exAllocC, exAllocD].map (fun x => x.allocation_id)).Nodup ∧
    exAllocC ∈ [exAllocC, exAllocD] ∧ exAllocC.instance_id = none ∧
    (List.countP (isInfoFor exAllocC.allocation_id)
        (handlerTrace [exAllocC, exAllocD] exRelease) = 1 ∧
     ∀ e, exRelease exAllocC.allocation_id = Except.error e →
       List.countP (isErrorFor exAllocC.allocation_id)
          (handlerTrace [exAllocC, exAllocD] exRelease) = 1) :=
  ⟨by decide, by decide, rfl,
   C2_info_on_every_attempt _ _ _ (by decide) (by decide) rfl⟩

/-- C3: for every allocation list and every combination of per-item release
outcomes, the returned mapping has `statusCode` exactly 200 and `body`
exactly `Released {N} unassociated EIP(s).` with `N` the (non-negative)
released count; partial failures never change the status code. -/
theorem C3_status_200_and_body_format (allocs : List AddressAllocation)
    (release : String → Except String Unit) :
    (lambda_handler allocs release).1.statusCode = 200 ∧
    (lambda_handler allocs release).1.body =
      releaseBody (releasedCount allocs release) :=
  ⟨rfl, rfl⟩

/-- C4: an allocation whose bound-instance identifier is present is never
passed to the release operation: no release-call event for it occurs
anywhere in the run. -/
theorem C4_associated_never_released (allocs : List AddressAllocation)
    (release : String → Except String Unit) (a : AddressAllocation) (ok : Bool)
    (h : a.instance_id.isSome = true) :
    Event.releaseCall a ok ∉ handlerTrace allocs release := by
  rw [handlerTrace_eq]
  intro hmem
  rcases mem_traceOf.mp hmem with ⟨b, _, hbe⟩
  rcases releaseCall_mem_entries hbe with ⟨_, hnone⟩
  rw [hnone] at h
  simp at h

/-- C4 witness: a concrete associated allocation is never released. -/
theorem C4_associated_never_released_witness :
    exAssoc.instance_id.isSome = true ∧
    Event.releaseCall exAssoc true ∉ handlerTrace [exAssoc, exUnassoc] alwaysOk :=
  ⟨rfl, C4_associated_never_released [exAssoc, exUnassoc] alwaysOk exAssoc true rfl⟩

/-- C5: for every allocation with an absent bound-instance identifier (and
allocation identifiers unique in scope), exactly one release call is
attempted for its allocation identifier in one invocation pass. -/
theorem C5_exactly_one_release_call (allocs : List AddressAllocation)
    (release : String → Except String Unit) (a : AddressAllocation)
    (hnd : (allocs.map (fun x => x.allocation_id)).Nodup)
    (ha : a ∈ allocs) (hun : a.instance_id = none) :
    List.countP (isCallFor a.allocation_id) (handlerTrace allocs release) = 1 := by
  rw [handlerTrace_eq,
      countP_traceOf_eq release _
        (fun b => b.instance_id.isNone && (b.allocation_id == a.allocation_id))
        (countP_isCallFor_entries release a.allocation_id)]
  exact countP_eq_one_of_key a _
    (fun b hb => by simp at hb; exact hb.2) allocs hnd ha (by simp [hun])

/-- C5 witness: in a run over one associated and one unassociated allocation,
exactly one release call is attempted for the unassociated one. -/
theorem C5_exactly_one_release_call_witness :
    ([exAssoc, exUnassoc].map (fun x => x.allocation_id)).Nodup ∧
    exUnassoc ∈ [exAssoc, exUnassoc] ∧ exUnassoc.instance_id = none ∧
    List.countP (isCallFor exUnassoc.allocation_id)
      (handlerTrace [exAssoc, exUnassoc] alwaysOk) = 1 :=
  ⟨by decide, by decide, rfl,
   C5_exactly_one_release_call _ _ _ (by decide) (by decide) rfl⟩

/-- C6: if the release call for an unassociated allocation raises, the
failure is caught (the run still returns, with status 200), an error record
naming that allocation identifier and the failure detail is emitted, and a
release call is still attempted for every other unassociated allocation —
one failure never aborts the batch. -/
theorem C6_failure_isolation (allocs : List AddressAllocation)
    (release : String → Except String Unit) (a : AddressAllocation) (e : String)
    (ha : a ∈ allocs) (hun : a.instance_id = none)
    (he : release a.allocation_id = Except.error e) :
    Event.error a.allocation_id e ∈ handlerTrace allocs release ∧
    (∀ b ∈ allocs, b.instance_id = none →
      Event.releaseCall b (relOk (release b.allocation_id)) ∈
        handlerTrace allocs release) ∧
    (lambda_handler allocs release).1.statusCode = 200 := by
  refine ⟨?_, ?_, rfl⟩
  · rw [handlerTrace_eq]
    exact mem_traceOf.mpr ⟨a, ha, error_mem_entries_self hun he⟩
  · intro b hb hbn
    rw [handlerTrace_eq]
    exact mem_traceOf.mpr ⟨b, hb, releaseCall_self_mem_entries hbn⟩

/-- C6 witness: in the worked example the release of eip-c fails, its error
record is logged, eip-d is still attempted, and the status code is 200. -/
theorem C6_failure_isolation_witness :
    exAllocC ∈ [exAllocC, exAllocD] ∧ exAllocC.instance_id = none ∧
    exRelease exAllocC.allocation_id = Except.error "AuthFailure" ∧
    (Event.error exAllocC.allocation_id "AuthFailure" ∈
       handlerTrace [exAllocC, exAllocD] exRelease ∧
     (∀ b ∈ [exAllocC, exAllocD], b.instance_id = none →
       Event.releaseCall b (relOk (exRelease b.allocation_id)) ∈
         handlerTrace [exAllocC, exAllocD] exRelease) ∧
     (lambda_handler [exAllocC, exAllocD] exRelease).1.statusCode = 200) :=
  ⟨by decide, rfl, rfl,
   C6_failure_isolation [exAllocC, exAllocD] exRelease exAllocC "AuthFailure"
     (by decide) rfl rfl⟩

/-- C7: with zero allocations in scope the handler performs no release call
and returns exactly `{statusCode: 200, body: 'Released 0 unassociated
EIP(s).'}`, whatever the release oracle. -/
theorem C7_empty_scope (release : String → Except String Unit) :
    lambda_handler [] release =
      (⟨200, "Released 0 unassociated EIP(s)."⟩, ([] : List Event)) ∧
    ∀ (a : AddressAllocation) (ok : Bool),
      Event.releaseCall a ok ∉ handlerTrace [] release := by
  have h0 : releaseBody 0 = "Released 0 unassociated EIP(s)." := by decide
  refine ⟨?_, ?_⟩
  · rw [← h0]
    rfl
  · intro a ok h
    simp [handlerTrace] at h

/-- C8 counterexample: after a run whose single release call failed, simply
re-running (with no external association change: the pool still holds the
allocation, since the failed release removed nothing) can release it, so the
second run's returned count is 1, not 0. -/
theorem C8_cex_second_run_after_failed_release :
    releasedCount [⟨"198.51.100.1", "eip-e", none⟩] alwaysFail = 0 ∧
    remainingPool [⟨"198.51.100.1", "eip-e", none⟩] alwaysFail =
      [⟨"198.51.100.1", "eip-e", none⟩] ∧
    releasedCount
      (remainingPool [⟨"198.51.100.1", "eip-e", none⟩] alwaysFail) alwaysOk = 1 := by
  decide

/-- C8 (amended): every successfully released allocation is absent from the
second enumeration, and after a first pass in which every release call
succeeded, a second run over the remaining pool (with no external
association changes) attempts no release and returns count 0; after a
partial failure the second run affects only the still-unassociated
allocations. -/
theorem C8_idempotent_after_successful_pass (allocs : List AddressAllocation)
    (r1 r2 : String → Except String Unit)
    (h : ∀ a ∈ allocs, a.instance_id = none → relOk (r1 a.allocation_id) = true) :
    (∀ a : AddressAllocation, a.instance_id = none →
       relOk (r1 a.allocation_id) = true → a ∉ remainingPool allocs r1) ∧
    releasedCount (remainingPool allocs r1) r2 = 0 ∧
    (∀ (a : AddressAllocation) (ok : Bool),
       Event.releaseCall a ok ∉ handlerTrace (remainingPool allocs r1) r2) ∧
    (lambda_handler (remainingPool allocs r1) r2).1.body = releaseBody 0 := by
  have hassoc : ∀ a ∈ remainingPool allocs r1, ¬ a.instance_id = none := by
    intro a ha hnone
    have hp := (List.mem_filter.mp ha).2
    have hok := h a (List.mem_filter.mp ha).1 hnone
    simp [hnone, hok] at hp
  have hcount : countAll r2 (remainingPool allocs r1) = 0 := countAll_eq_zero hassoc
  have htrace : traceOf r2 (remainingPool allocs r1) = [] := traceOf_eq_nil hassoc
  refine ⟨?_, ?_, ?_, ?_⟩
  · intro a hnone hok hmem
    have hp := (List.mem_filter.mp hmem).2
    simp [hnone, hok] at hp
  · rw [releasedCount_eq, hcount]
  · intro a ok hmem
    rw [handlerTrace_eq, htrace] at hmem
    simp at hmem
  · rw [lambda_handler_eq, hcount]

/-- C8 witness: a fully successful first pass over one associated and one
unassociated allocation leaves a pool on which the second run releases
nothing. -/
theorem C8_idempotent_after_successful_pass_witness :
    (∀ a ∈ [exAssoc, exUnassoc], a.instance_id = none →
       relOk (alwaysOk a.allocation_id) = true) ∧
    ((∀ a : AddressAllocation, a.instance_id = none →
        relOk (alwaysOk a.allocation_id) = true →
        a ∉ remainingPool [exAssoc, exUnassoc] alwaysOk) ∧
     releasedCount (remainingPool [exAssoc, exUnassoc] alwaysOk) alwaysOk = 0 ∧
     (∀ (a : AddressAllocation) (ok : Bool),
        Event.releaseCall a ok ∉
          handlerTrace (remainingPool [exAssoc, exUnassoc] alwaysOk) alwaysOk) ∧
     (lambda_handler (remainingPool [exAssoc, exUnassoc] alwaysOk) alwaysOk).1.body =
       releaseBody 0) :=
  ⟨by decide,
   C8_idempotent_after_successful_pass [exAssoc, exUnassoc] alwaysOk alwaysOk
     (by decide)⟩

/-- C9: when the enumeration of the address pool fails, nothing catches the
failure: the invocation aborts with that failure and no result mapping is
returned. -/
theorem C9_enumeration_failure_propagates (err : String)
    (release : String → Except String Unit) :
    lambda_handler_full (Except.error err) release = Except.error err ∧
    ∀ res, lambda_handler_full (Except.error err) release ≠ Except.ok res :=
  ⟨rfl, fun _ h => Except.noConfusion h⟩

/-- C10: frame property — allocations with a present bound-instance
identifier contribute nothing to the run: the returned mapping and the whole
event trace coincide with those of the run over only the unassociated
subsequence. -/
theorem C10_frame_associated_untouched (allocs : List AddressAllocation)
    (release : String → Except String Unit) :
    lambda_handler allocs release =
      lambda_handler (allocs.filter fun a => a.instance_id.isNone) release := by
  rw [lambda_handler_eq, lambda_handler_eq, countAll_filter, traceOf_filter]
